import Mathlib

/-!
# Verification of the audio-asset backend core

Shallow embedding of the repository: the string helpers and upload
validator (`app/utils/helpers.py`), the audio service and its document
store (`app/services/audio_service.py`), the pydantic model validators
(`app/models/audio.py`), the HTTP route handlers (`app/routers/audio.py`),
and the security middleware (`app/middleware/security.py`).

Python strings are modelled over ASCII: `str.lower()` maps `A`-`Z` to
`a`-`z`, `str.strip()` removes leading and trailing whitespace
(space, tab, newline, carriage return, vertical tab, form feed).
Machine-level details (event loop, BSON wire format) are abstracted:
the Mongo collection is a list of documents in insertion order,
an `ObjectId` is a 24-character hex string, and `time.time()` is an
integer parameter threaded through the middleware.
-/

namespace AudioBackend

/-! ## Python string primitives -/

/-- Model of `str.lower()` on one ASCII character. -/
def pyLowerChar (c : Char) : Char :=
  if 65 ≤ c.toNat ∧ c.toNat ≤ 90 then Char.ofNat (c.toNat + 32) else c

/-- Model of `str.lower()`. -/
def pyLower (s : String) : String :=
  ⟨s.data.map pyLowerChar⟩

/-- Model of `str.upper()` on one ASCII character. -/
def pyUpperChar (c : Char) : Char :=
  if 97 ≤ c.toNat ∧ c.toNat ≤ 122 then Char.ofNat (c.toNat - 32) else c

/-- Whitespace characters removed by Python `str.strip()`. -/
def isPySpace (c : Char) : Bool :=
  c = ' ' || c = '\t' || c = '\n' || c = '\r' || c = Char.ofNat 11 || c = Char.ofNat 12

/-- Model of `str.strip()`: drop leading whitespace, then trailing whitespace. -/
def pyStripList (l : List Char) : List Char :=
  List.rdropWhile isPySpace (List.dropWhile isPySpace l)

/-- Model of `str.strip()` on strings. -/
def pyStrip (s : String) : String :=
  ⟨pyStripList s.data⟩

/-- One step of Python `str.title()`: capitalize a letter that follows a
non-letter, lower-case a letter that follows a letter. -/
def pyTitleCore : List Char → Bool → List Char
  | [], _ => []
  | c :: rest, prevAlpha =>
    (if c.isAlpha then (if prevAlpha then pyLowerChar c else pyUpperChar c) else c)
      :: pyTitleCore rest c.isAlpha

/-- Python `str.title()` (ASCII model), used by `.title()` fallback names. -/
def pyTitle (s : String) : String :=
  ⟨pyTitleCore s.data false⟩

/-- Python `"x.y.z".split('.')` on character lists: split at every dot. -/
def splitDotList : List Char → List (List Char)
  | [] => [[]]
  | c :: rest =>
    if c = '.' then [] :: splitDotList rest
    else
      match splitDotList rest with
      | [] => [[c]]
      | part :: parts => (c :: part) :: parts

/-- Python `filename.split('.')[-1]`: the part after the last dot
(the whole string when there is no dot). -/
def lastDotPart (s : String) : String :=
  ⟨(splitDotList s.data).getLast (by
    induction s.data with
    | nil => simp [splitDotList]
    | cons c rest ih =>
      simp only [splitDotList]
      split
      · simp
      · split
        · simp
        · simp_all)⟩

/-- Python `sub in s` (substring containment) on character lists:
`pat` occurs as a prefix of some suffix. -/
def hasInfix (pat : List Char) : List Char → Bool
  | [] => pat.isEmpty
  | c :: rest => List.isPrefixOf pat (c :: rest) || hasInfix pat rest

/-- Python `sub in s` (substring containment). -/
def strContains (s sub : String) : Bool :=
  hasInfix sub.data s.data

/-- Python `s.startswith(pre)`. -/
def pyStartsWith (s pre : String) : Bool :=
  List.isPrefixOf pre.data s.data

/-- ASCII decimal digit test. -/
def isDigitChar (c : Char) : Bool :=
  48 ≤ c.toNat && c.toNat ≤ 57

/-- Numeric value of a decimal digit character. -/
def digitVal (c : Char) : Nat :=
  c.toNat - 48

/-- Digits of a Python integer literal after the first digit: digits with
single underscores allowed between digits. -/
def pyDigitsRest : List Char → Nat → Option Nat
  | [], acc => some acc
  | '_' :: c :: rest, acc =>
    if isDigitChar c then pyDigitsRest rest (acc * 10 + digitVal c) else none
  | ['_'], _ => none
  | c :: rest, acc =>
    if isDigitChar c then pyDigitsRest rest (acc * 10 + digitVal c) else none

/-- A nonempty run of digits (underscore separators allowed), as in
Python `int()` parsing. -/
def pyDigits : List Char → Option Nat
  | [] => none
  | c :: rest => if isDigitChar c then pyDigitsRest rest (digitVal c) else none

/-- Python `int(s)`: strip whitespace, optional sign, decimal digits;
`none` models the `ValueError` raised on any other input. -/
def pyParseInt (s : String) : Option Int :=
  match pyStripList s.data with
  | '+' :: rest => (pyDigits rest).map Int.ofNat
  | '-' :: rest => (pyDigits rest).map (fun n => -(n : Int))
  | l => (pyDigits l).map Int.ofNat

/-- Lexicographic comparison of character lists by code point,
the order Mongo uses to sort string keys ascending. -/
def charListLe : List Char → List Char → Bool
  | [], _ => true
  | _ :: _, [] => false
  | a :: as, b :: bs =>
    if a.toNat < b.toNat then true
    else if a = b then charListLe as bs else false

/-- String comparison used by the `$sort {_id: 1}` aggregation stage. -/
def strLe (a b : String) : Bool :=
  charListLe a.data b.data

/-- Insert into a list sorted ascending by `strLe`. -/
def insertSortedStr (x : String) : List String → List String
  | [] => [x]
  | y :: ys => if strLe x y then x :: y :: ys else y :: insertSortedStr x ys

/-- Insertion sort ascending by `strLe` (models the Mongo `$sort` stage). -/
def sortStrings : List String → List String
  | [] => []
  | x :: xs => insertSortedStr x (sortStrings xs)

/-- Hexadecimal digit test (for BSON ObjectId strings and uuid hex). -/
def isHexChar (c : Char) : Bool :=
  isDigitChar c || (97 ≤ c.toNat && c.toNat ≤ 102) || (65 ≤ c.toNat && c.toNat ≤ 70)

/-- Model of `bson.ObjectId.is_valid` on strings: exactly 24 hex characters. -/
def isValidObjectId (s : String) : Bool :=
  s.data.length = 24 && s.data.all isHexChar

/-- Model of `os.path.join(a, b)` for one component: an absolute second component
replaces the first (Python semantics), else join with a slash. -/
def osPathJoin (a b : String) : String :=
  if pyStartsWith b "/" then b else a ++ "/" ++ b

/-! ## Configuration (`app/config.py`, environment defaults) -/

/-- Environment-derived configuration, `app/config.py`. -/
structure Settings where
  AUDIO_FILES_PATH : String
  MAX_FILE_SIZE : Nat
  ALLOWED_AUDIO_FORMATS : List String
  PORT : Nat
deriving DecidableEq, Repr

/-- The default configuration values from `app/config.py`. -/
def settings : Settings :=
  { AUDIO_FILES_PATH := "./audio_files"
    MAX_FILE_SIZE := 10485760
    ALLOWED_AUDIO_FORMATS := ["mp3", "wav", "m4a"]
    PORT := 8000 }

/-! ## Upload handles and the filesystem model -/

/-- A FastAPI `UploadFile` handle: optional declared filename, declared
content type and declared size, plus the body length in bytes. -/
structure UploadFile where
  filename : Option String
  content_type : Option String
  size : Option Nat
  contentLen : Nat
deriving DecidableEq, Repr

/-- A stored file: its byte length and whether `os.remove` would succeed
on it (`removable := false` models a file the process cannot unlink). -/
structure FSFile where
  size : Nat
  removable : Bool
deriving DecidableEq, Repr

/-- The filesystem: stored files keyed by path, plus the set of paths on
which opening for write raises an `OSError` (disk full, permissions). -/
structure FS where
  files : List (String × FSFile)
  writeFailures : List String
deriving DecidableEq, Repr

/-- Model of `os.path.exists`. -/
def FS.pathExists (fs : FS) (p : String) : Bool :=
  (fs.files.lookup p).isSome

/-- Write a file of `n` bytes at path `p` (overwriting any existing one). -/
def FS.write (fs : FS) (p : String) (n : Nat) : FS :=
  { fs with files := (p, ⟨n, true⟩) :: fs.files.filter (fun q => q.1 ≠ p) }

/-- Model of `os.remove`, assuming it succeeds: drop the entry at `p`. -/
def FS.removeFile (fs : FS) (p : String) : FS :=
  { fs with files := fs.files.filter (fun q => q.1 ≠ p) }

/-- Whether `os.remove p` would succeed. -/
def FS.removableAt (fs : FS) (p : String) : Bool :=
  match fs.files.lookup p with
  | some f => f.removable
  | none => false

/-! ## Helpers (`app/utils/helpers.py`) -/

/-- Model of `save_uploaded_file` (`helpers.py` lines 10-29): join the configured
directory with the caller-supplied name and write the whole buffered
body; any I/O exception is logged and re-raised (`Except.error`).
There is no check of any kind on `filename` before the write. -/
def save_uploaded_file (cfg : Settings) (fs : FS) (contentLen : Nat)
    (filename : String) : Except Unit (String × FS) :=
  let file_path := osPathJoin cfg.AUDIO_FILES_PATH filename
  if file_path ∈ fs.writeFailures then .error ()
  else .ok (file_path, fs.write file_path contentLen)

/-- The Python truthiness test `if file.size and file.size > MAX`:
`None` and `0` are falsy. -/
def sizeCheckTrips (sz : Option Nat) (mx : Nat) : Bool :=
  match sz with
  | none => false
  | some s => (s != 0) && decide (s > mx)

/-- The Python truthiness test `if not file.filename`. -/
def filenameMissing (fn : Option String) : Bool :=
  match fn with
  | none => true
  | some s => s = ""

/-- Model of `validate_audio_file` (`helpers.py` lines 31-54): checks size, then
filename presence, then extension, then content type, returning the
first failure; total, so the `except` branch is unreachable. -/
def validate_audio_file (cfg : Settings) (file : UploadFile) :
    Bool × Option String :=
  if sizeCheckTrips file.size cfg.MAX_FILE_SIZE then
    (false, some ("File size exceeds maximum allowed size of " ++
      toString cfg.MAX_FILE_SIZE ++ " bytes"))
  else if filenameMissing file.filename then
    (false, some "No filename provided")
  else
    let file_extension := pyLower (lastDotPart (file.filename.getD ""))
    if file_extension ∉ cfg.ALLOWED_AUDIO_FORMATS then
      (false, some ("File format not allowed. Allowed formats: " ++
        String.intercalate ", " cfg.ALLOWED_AUDIO_FORMATS))
    else
      match file.content_type with
      | some ct =>
        if ct ≠ "" ∧ ¬ pyStartsWith ct "audio/" then
          (false, some "File is not an audio file")
        else (true, none)
      | none => (true, none)

/-- Model of `generate_file_url` (`helpers.py` lines 56-61). -/
def generate_file_url (cfg : Settings) (filename : String) : String :=
  "http://localhost:" ++ toString cfg.PORT ++ "/audio_files/" ++ filename

/-- Model of `get_file_size` (`helpers.py` lines 63-69): `os.path.getsize`, with
every exception caught, logged, and converted to the default `0`. -/
def get_file_size (fs : FS) (file_path : String) : Nat :=
  match fs.files.lookup file_path with
  | some f => f.size
  | none => 0

/-- The alias table of `normalize_language_code`, as a `dict.get` chain. -/
def languageMapGet (l : String) : String :=
  if l = "english" then "en"
  else if l = "eng" then "en"
  else if l = "arabic" then "ar"
  else if l = "ara" then "ar"
  else l

/-- Model of `normalize_language_code` (`helpers.py` lines 71-83): lower-case,
strip, then map known aliases, passing unknown codes through. -/
def normalize_language_code (language : String) : String :=
  languageMapGet (pyStrip (pyLower language))

/-! ## Documents and the store (`app/models/audio.py`, Mongo collection) -/

/-- A persisted `audio_files` document. Timestamps are abstract integers. -/
structure AudioDoc where
  id : String
  language : String
  filename : String
  url : String
  file_size : Nat
  duration : Option Nat
  format : String
  created_at : Int
  updated_at : Int
deriving DecidableEq, Repr

/-- The `audio_files` collection, documents in insertion order. -/
structure Store where
  docs : List AudioDoc
deriving DecidableEq, Repr

/-- Errors raised inside the service layer before the router maps them. -/
inductive SvcErr where
  /-- Model of `bson.errors.InvalidId` from the `ObjectId` constructor. -/
  | invalidId
  /-- pydantic `ValueError` from a model field validator. -/
  | validationError
deriving DecidableEq, Repr

/-- Model of `AudioFileBase.validate_language` (`models/audio.py` lines 29-36):
accept `en`, `ar`, `english`, `arabic` case-insensitively and store the
lower-cased value; raise `ValueError` otherwise. -/
def validate_language (v : String) : Except SvcErr String :=
  if pyLower v ∈ ["en", "ar", "english", "arabic"] then .ok (pyLower v)
  else .error .validationError

/-- Model of `AudioFileBase.validate_format` (`models/audio.py` lines 38-44):
accept `mp3`, `wav`, `m4a`, `ogg` case-insensitively, lower-cased. -/
def validate_format (v : String) : Except SvcErr String :=
  if pyLower v ∈ ["mp3", "wav", "m4a", "ogg"] then .ok (pyLower v)
  else .error .validationError

/-- Constructing `AudioFile(**doc)` from a fetched document runs the two
field validators; failure is a raised `ValueError`. -/
def mkAudioFile (d : AudioDoc) : Except SvcErr AudioDoc :=
  match validate_language d.language, validate_format d.format with
  | .ok l, .ok f => .ok { d with language := l, format := f }
  | .error e, _ => .error e
  | _, .error e => .error e

/-- The payload of a validated `AudioFileCreate` model. -/
structure AudioFileCreate where
  language : String
  filename : String
  url : String
  file_size : Nat
  duration : Option Nat
  format : String
deriving DecidableEq, Repr

/-- Constructing `AudioFileCreate(...)` runs the field validators. -/
def mkAudioFileCreate (language filename url : String) (file_size : Nat)
    (duration : Option Nat) (format : String) : Except SvcErr AudioFileCreate :=
  match validate_language language, validate_format format with
  | .ok l, .ok f =>
    .ok { language := l, filename := filename, url := url,
          file_size := file_size, duration := duration, format := f }
  | .error e, _ => .error e
  | _, .error e => .error e

/-- Model of `AudioFileUpdate` (`models/audio.py` lines 51-58): all fields
optional, and — unlike `AudioFileBase` — carrying no validators. -/
structure AudioFileUpdate where
  language : Option String := none
  filename : Option String := none
  file_size : Option Nat := none
  duration : Option Nat := none
  format : Option String := none
  url : Option String := none
deriving DecidableEq, Repr

/-! ## Service operations (`app/services/audio_service.py`) -/

/-- Model of `AudioService.create_audio_file` (lines 21-47): insert the document
with fresh timestamps (`newId` stands for the ObjectId Mongo assigns)
and return the fetched copy. -/
def create_audio_file (st : Store) (c : AudioFileCreate) (newId : String)
    (now : Int) : AudioDoc × Store :=
  let doc : AudioDoc :=
    { id := newId, language := c.language, filename := c.filename,
      url := c.url, file_size := c.file_size, duration := c.duration,
      format := c.format, created_at := now, updated_at := now }
  (doc, ⟨st.docs ++ [doc]⟩)

/-- The inline second normalization inside `get_audio_by_language`
(lines 49-70): lower-case, then collapse `english`/`en` and
`arabic`/`ar`. -/
def svcLangCode (language : String) : String :=
  let lc := pyLower language
  if lc = "english" ∨ lc = "en" then "en"
  else if lc = "arabic" ∨ lc = "ar" then "ar"
  else lc

/-- Model of `AudioService.get_audio_by_language` (lines 49-70): `find_one` on the
normalized code, first document in insertion order; the fetched document
is materialized through the model validators. -/
def get_audio_by_language_svc (st : Store) (language : String) :
    Except SvcErr (Option AudioDoc) :=
  match st.docs.find? (fun d => d.language = svcLangCode language) with
  | none => .ok none
  | some d => (mkAudioFile d).map some

/-- Model of `AudioService.get_audio_by_id` (lines 165-178): the `ObjectId`
constructor raises `InvalidId` on a malformed identifier; otherwise a
direct key lookup. -/
def get_audio_by_id (st : Store) (audio_id : String) :
    Except SvcErr (Option AudioDoc) :=
  if ¬ isValidObjectId audio_id then .error .invalidId
  else
    match st.docs.find? (fun d => d.id = audio_id) with
    | none => .ok none
    | some d => (mkAudioFile d).map some

/-- Model of `AudioService.delete_audio_file` (lines 153-163): `delete_one`
removes the first matching document; the result is
`deleted_count > 0`. -/
def delete_audio_file_svc (st : Store) (audio_id : String) :
    Except SvcErr (Bool × Store) :=
  if ¬ isValidObjectId audio_id then .error .invalidId
  else
    let found := (st.docs.find? (fun d => d.id = audio_id)).isSome
    .ok (found, ⟨st.docs.eraseP (fun d => d.id = audio_id)⟩)

/-- Apply the `$set` document built by `update_audio_file`: every
non-`None` field of the partial input, plus a fresh `updated_at`.
No validator runs on any of these values. -/
def applyUpdate (d : AudioDoc) (u : AudioFileUpdate) (now : Int) : AudioDoc :=
  { d with
    language := u.language.getD d.language
    filename := u.filename.getD d.filename
    file_size := u.file_size.getD d.file_size
    duration := match u.duration with | some x => some x | none => d.duration
    format := u.format.getD d.format
    url := u.url.getD d.url
    updated_at := now }

/-- Replace the first document matching `p` with `f` applied to it. -/
def replaceFirst (p : AudioDoc → Bool) (f : AudioDoc → AudioDoc) :
    List AudioDoc → List AudioDoc
  | [] => []
  | d :: ds => if p d then f d :: ds else d :: replaceFirst p f ds

/-- Model of `AudioService.update_audio_file` (lines 127-151): `update_one` with
the unvalidated `$set` document; when the document actually changed
(`modified_count > 0`) the fetched copy is returned through the model
validators, else `None`. The store mutation commits regardless of
whether the later fetch-materialization raises. -/
def update_audio_file (st : Store) (audio_id : String)
    (u : AudioFileUpdate) (now : Int) :
    Except SvcErr (Option AudioDoc) × Store :=
  if ¬ isValidObjectId audio_id then (.error .invalidId, st)
  else
    match st.docs.find? (fun d => d.id = audio_id) with
    | none => (.ok none, st)
    | some d =>
      let newDoc := applyUpdate d u now
      let st2 : Store := ⟨replaceFirst (fun x => x.id = audio_id) (fun _ => newDoc) st.docs⟩
      if newDoc ≠ d then ((mkAudioFile newDoc).map some, st2)
      else (.ok none, st2)

/-- The static display-name table in `get_available_languages`. -/
def language_names : List (String × String) :=
  [("en", "English"), ("ar", "Arabic")]

/-- One `{language, language_name, count}` row of the languages listing. -/
structure LanguageResponse where
  language : String
  language_name : String
  count : Nat
deriving DecidableEq, Repr

/-- Model of `AudioService.get_available_languages` (lines 84-121): `$group` by
`language` with `$sum 1`, `$sort {_id: 1}` ascending, then display-name
lookup with a `.title()` fallback. -/
def get_available_languages (st : Store) : List LanguageResponse :=
  let keys := sortStrings ((st.docs.map (fun d => d.language)).dedup)
  keys.map (fun k =>
    { language := k
      language_name := (language_names.lookup k).getD (pyTitle k)
      count := st.docs.countP (fun d => d.language = k) })

/-! ## Route handlers (`app/routers/audio.py`) -/

/-- A route outcome: a `200` payload or an `HTTPException` with a status
code and detail string. -/
inductive RouteResult (α : Type) where
  | ok (payload : α)
  | err (code : Nat) (detail : String)
deriving DecidableEq, Repr

/-- Model of `upload_audio_file` (`routers/audio.py` lines 90-165): validate,
normalize the form language, build `{lang}_{uuid4().hex}.{ext}`, save,
measure the saved file, build the URL, construct the validated create
model, insert. `token` stands for `uuid.uuid4().hex` and `newId` for the
ObjectId the store assigns; any non-HTTP exception maps to a 500. -/
def upload_audio_file_route (cfg : Settings) (st : Store) (fs : FS)
    (file : UploadFile) (language token newId : String) (now : Int) :
    RouteResult AudioDoc × Store × FS :=
  match validate_audio_file cfg file with
  | (false, reason) => (.err 400 (reason.getD ""), st, fs)
  | (true, _) =>
    let normalized_lang := normalize_language_code language
    let file_extension := pyLower (lastDotPart (file.filename.getD ""))
    let unique_filename := normalized_lang ++ "_" ++ token ++ "." ++ file_extension
    match save_uploaded_file cfg fs file.contentLen unique_filename with
    | .error _ => (.err 500 "Failed to upload audio file", st, fs)
    | .ok (file_path, fs2) =>
      let file_size := get_file_size fs2 file_path
      let file_url := generate_file_url cfg unique_filename
      match mkAudioFileCreate normalized_lang unique_filename file_url
          file_size none file_extension with
      | .error _ => (.err 500 "Failed to upload audio file", st, fs2)
      | .ok c =>
        let (doc, st2) := create_audio_file st c newId now
        (.ok doc, st2, fs2)

/-- Model of `get_audio_by_language` route (`routers/audio.py` lines 47-88):
normalize, query the service, `404` when nothing matches, `500` when the
service raises. -/
def get_audio_by_language_route (st : Store) (language : String) :
    RouteResult AudioDoc :=
  match get_audio_by_language_svc st (normalize_language_code language) with
  | .error _ => .err 500 "Failed to retrieve audio file"
  | .ok none => .err 404 ("No audio file found for language: " ++ language)
  | .ok (some d) => .ok d

/-- Model of `delete_audio_file` route (`routers/audio.py` lines 228-268): fetch
the record, delete the store document, then `os.remove` the physical
file if it exists. A raised `InvalidId` or a raised `OSError` both land
in the generic `except` branch, which answers `500` — after the store
deletion has already committed in the `OSError` case. -/
def delete_audio_file_route (cfg : Settings) (st : Store) (fs : FS)
    (audio_id : String) : RouteResult String × Store × FS :=
  match get_audio_by_id st audio_id with
  | .error _ => (.err 500 "Failed to delete audio file", st, fs)
  | .ok none => (.err 404 "Audio file not found", st, fs)
  | .ok (some audio_file) =>
    match delete_audio_file_svc st audio_id with
    | .error _ => (.err 500 "Failed to delete audio file", st, fs)
    | .ok (deleted, st2) =>
      if ¬ deleted then (.err 404 "Audio file not found", st2, fs)
      else
        let file_path := osPathJoin cfg.AUDIO_FILES_PATH audio_file.filename
        if fs.pathExists file_path then
          if fs.removableAt file_path then
            (.ok "Audio file deleted successfully", st2, fs.removeFile file_path)
          else (.err 500 "Failed to delete audio file", st2, fs)
        else (.ok "Audio file deleted successfully", st2, fs)

/-! ## Security middleware (`app/middleware/security.py`) -/

/-- An inbound HTTP request as the middleware sees it: the client
network address, the (lower-cased-key) header map, and the arrival
time `time.time()`. -/
structure Req where
  client : String
  headers : List (String × String)
  time : Int
deriving DecidableEq, Repr

/-- Model of `SecurityMiddleware` state: per-client request timestamps and the
block set. -/
structure GuardState where
  request_count : String → List Int
  blocked_ips : List String

/-- The state at process start: empty counters, empty block set. -/
def initialGuardState : GuardState :=
  { request_count := fun _ => [], blocked_ips := [] }

/-- The header names scanned for injection patterns. -/
def suspicious_headers : List String :=
  ["x-forwarded-for", "x-real-ip", "x-cluster-client-ip",
   "x-forwarded", "x-forwarded-proto", "x-forwarded-host"]

/-- The injection patterns looked for in those header values. -/
def injectionPatterns : List String :=
  ["<script", "javascript:", "data:"]

/-- The scan over forwarding headers inside `_validate_request`. -/
def headerSuspicious (hs : List (String × String)) : Bool :=
  suspicious_headers.any (fun h =>
    match hs.lookup h with
    | some v => injectionPatterns.any (fun pat => strContains (pyLower v) pat)
    | none => false)

/-- Model of `SecurityMiddleware._validate_request` (lines 54-81): forwarding
header scan, then the content-length cap at the hard-coded
`10 * 1024 * 1024`; `int()` raising on an unparseable value is caught by
the blanket `except`, which returns `False` — the guard fails closed.
The configured `MAX_FILE_SIZE` is never consulted here. -/
def validate_request (hs : List (String × String)) : Bool :=
  if headerSuspicious hs then false
  else
    match hs.lookup "content-length" with
    | none => true
    | some v =>
      if v = "" then true
      else
        match pyParseInt v with
        | none => false
        | some n => decide (n ≤ 10 * 1024 * 1024)

/-- Model of `SecurityMiddleware._log_request` (lines 83-114): prune timestamps
older than 60 seconds, append the current one, and add the client to the
block set when the in-window count exceeds 100. -/
def log_request (st : GuardState) (client : String) (now : Int) : GuardState :=
  let pruned := (st.request_count client).filter (fun t => now - t < 60)
  let lst := pruned ++ [now]
  { request_count := fun c => if c = client then lst else st.request_count c
    blocked_ips :=
      if lst.length > 100 then st.blocked_ips.insert client else st.blocked_ips }

/-- The middleware verdict on one request. -/
inductive MwResponse where
  /-- Model of `403 {"error": "IP blocked due to suspicious activity"}`. -/
  | forbidden
  /-- Model of `400 {"error": "Invalid request"}`. -/
  | badRequest
  /-- The request is passed on to the application. -/
  | passed
deriving DecidableEq, Repr

/-- Model of `SecurityMiddleware.__call__` (lines 26-52) for an HTTP scope:
block-list check, then structural validation, then rate accounting. -/
def security_call (st : GuardState) (r : Req) : MwResponse × GuardState :=
  if r.client ∈ st.blocked_ips then (.forbidden, st)
  else if ¬ validate_request r.headers then (.badRequest, st)
  else (.passed, log_request st r.client r.time)

/-- Run the middleware over a sequence of requests, collecting verdicts. -/
def runGuard (st : GuardState) : List Req → GuardState × List MwResponse
  | [] => (st, [])
  | r :: rs =>
    let (resp, st2) := security_call st r
    let (stf, resps) := runGuard st2 rs
    (stf, resp :: resps)

/-- A sequence of plain requests (no special headers) from one client at
the given times. -/
def mkReqs (client : String) (ts : List Int) : List Req :=
  ts.map (fun t => ⟨client, [], t⟩)

/-! ## Concrete stores and files used as test fixtures -/

/-- A document with the given ObjectId-digit, language and filename. -/
def exDoc (lang fname : String) (i : Nat) : AudioDoc :=
  { id := String.mk (List.replicate 23 'a' ++ [Char.ofNat (48 + i)])
    language := lang, filename := fname, url := "u", file_size := 1,
    duration := none, format := "mp3", created_at := 0, updated_at := 0 }

/-- A store holding exactly three `en` and two `ar` documents. -/
def exampleStore : Store :=
  ⟨[exDoc "en" "f0.mp3" 0, exDoc "en" "f1.mp3" 1, exDoc "ar" "f2.mp3" 2,
    exDoc "en" "f3.mp3" 3, exDoc "ar" "f4.mp3" 4]⟩

/-! ## Lemmas about the string primitives -/

theorem char_toNat_ofNat {n : Nat} (h : n < 0xd800) : (Char.ofNat n).toNat = n := by
  simp [Char.ofNat, Nat.isValidChar, h, Char.ofNatAux, Char.toNat, UInt32.toNat]

theorem pyLowerChar_toNat_of_upper {c : Char} (h : 65 ≤ c.toNat ∧ c.toNat ≤ 90) :
    (pyLowerChar c).toNat = c.toNat + 32 := by
  unfold pyLowerChar
  rw [if_pos h]
  exact char_toNat_ofNat (by omega)

theorem pyLowerChar_not_upper (c : Char) :
    ¬(65 ≤ (pyLowerChar c).toNat ∧ (pyLowerChar c).toNat ≤ 90) := by
  by_cases h : 65 ≤ c.toNat ∧ c.toNat ≤ 90
  · rw [pyLowerChar_toNat_of_upper h]; omega
  · unfold pyLowerChar; rw [if_neg h]; exact h

theorem pyLowerChar_idem (c : Char) : pyLowerChar (pyLowerChar c) = pyLowerChar c := by
  have hnot := pyLowerChar_not_upper c
  set d := pyLowerChar c with hd
  unfold pyLowerChar
  rw [if_neg hnot]

theorem isPySpace_false_of_gt {c : Char} (h : 32 < c.toNat) : isPySpace c = false := by
  simp only [isPySpace, Bool.or_eq_false_iff, decide_eq_false_iff_not]
  refine ⟨⟨⟨⟨⟨?_, ?_⟩, ?_⟩, ?_⟩, ?_⟩, ?_⟩ <;> (intro e; subst e; revert h; decide)

theorem isPySpace_pyLowerChar (c : Char) : isPySpace (pyLowerChar c) = isPySpace c := by
  by_cases h : 65 ≤ c.toNat ∧ c.toNat ≤ 90
  · have h1 : isPySpace c = false := isPySpace_false_of_gt (by omega)
    have h2 : isPySpace (pyLowerChar c) = false :=
      isPySpace_false_of_gt (by rw [pyLowerChar_toNat_of_upper h]; omega)
    rw [h1, h2]
  · unfold pyLowerChar
    rw [if_neg h]

theorem map_eq_self_of_mem {α : Type} {f : α → α} {l : List α}
    (h : ∀ x ∈ l, f x = x) : l.map f = l := by
  induction l with
  | nil => rfl
  | cons a as ih =>
    simp only [List.map_cons, h a (by simp), List.cons.injEq, true_and]
    exact ih (fun x hx => h x (by simp [hx]))

theorem pyStripList_subset (l : List Char) : ∀ c ∈ pyStripList l, c ∈ l := by
  intro c hc
  unfold pyStripList at hc
  exact (List.dropWhile_suffix isPySpace).subset
    (( List.rdropWhile_prefix isPySpace _).subset hc)

theorem pyLower_map_idem (l : List Char) :
    (l.map pyLowerChar).map pyLowerChar = l.map pyLowerChar := by
  rw [List.map_map]
  exact List.map_congr_left (fun c _ => pyLowerChar_idem c)

theorem pyLower_pyStrip_pyLower (x : String) :
    pyLower (pyStrip (pyLower x)) = pyStrip (pyLower x) := by
  show (⟨(pyStripList ((x.data).map pyLowerChar)).map pyLowerChar⟩ : String) = _
  congr 1
  apply map_eq_self_of_mem
  intro c hc
  have hmem := pyStripList_subset _ c hc
  obtain ⟨a, _, rfl⟩ := List.mem_map.mp hmem
  exact pyLowerChar_idem a

theorem dropWhile_pyStripList (l : List Char) :
    List.dropWhile isPySpace (pyStripList l) = pyStripList l := by
  unfold pyStripList
  rcases h : List.rdropWhile isPySpace (List.dropWhile isPySpace l) with _ | ⟨c, rest⟩
  · rfl
  · rw [List.dropWhile_eq_self_iff]
    intro hl
    show ¬ isPySpace c = true
    obtain ⟨t, ht⟩ := List.rdropWhile_prefix isPySpace (List.dropWhile isPySpace l)
    rw [h] at ht
    have hne : List.dropWhile isPySpace l ≠ [] := by
      rw [← ht]; simp
    have hh : (List.dropWhile isPySpace l).head? = some c := by
      rw [← ht]; rfl
    have hq := List.head?_eq_head hne
    rw [hh] at hq
    have hnot := List.head_dropWhile_not isPySpace l hne
    rw [← Option.some.inj hq] at hnot
    simp [hnot]

theorem pyStripList_idem (l : List Char) :
    pyStripList (pyStripList l) = pyStripList l := by
  show List.rdropWhile isPySpace (List.dropWhile isPySpace (pyStripList l)) = pyStripList l
  rw [dropWhile_pyStripList]
  show List.rdropWhile isPySpace (List.rdropWhile isPySpace (List.dropWhile isPySpace l)) =
    List.rdropWhile isPySpace (List.dropWhile isPySpace l)
  exact List.rdropWhile_idempotent _ _

theorem pyStrip_idem (x : String) : pyStrip (pyStrip x) = pyStrip x := by
  show (⟨pyStripList (pyStripList x.data)⟩ : String) = _
  rw [pyStripList_idem]
  rfl

theorem languageMapGet_of_not_alias {z : String} (h1 : z ≠ "english")
    (h2 : z ≠ "eng") (h3 : z ≠ "arabic") (h4 : z ≠ "ara") :
    languageMapGet z = z := by
  unfold languageMapGet
  rw [if_neg h1, if_neg h2, if_neg h3, if_neg h4]

theorem normalize_language_code_idem (x : String) :
    normalize_language_code (normalize_language_code x) = normalize_language_code x := by
  unfold normalize_language_code
  by_cases h1 : pyStrip (pyLower x) = "english"
  · rw [h1]; decide
  · by_cases h2 : pyStrip (pyLower x) = "eng"
    · rw [h2]; decide
    · by_cases h3 : pyStrip (pyLower x) = "arabic"
      · rw [h3]; decide
      · by_cases h4 : pyStrip (pyLower x) = "ara"
        · rw [h4]; decide
        · rw [languageMapGet_of_not_alias h1 h2 h3 h4,
            pyLower_pyStrip_pyLower, pyStrip_idem,
            languageMapGet_of_not_alias h1 h2 h3 h4]

/-- C9: `normalize_language_code` is idempotent on every input; it sends
`"English"` and `"en"` to `"en"`; it maps the aliases `english`/`eng` to
`en` and `arabic`/`ara` to `ar`; and it returns any other input merely
lower-cased and stripped, with no failure mode (it is a total pure
function of its argument). -/
theorem C9_normalize_idempotent_and_aliases :
    (∀ x : String,
      normalize_language_code (normalize_language_code x) = normalize_language_code x) ∧
    normalize_language_code "English" = "en" ∧
    normalize_language_code "en" = "en" ∧
    normalize_language_code "english" = "en" ∧
    normalize_language_code "eng" = "en" ∧
    normalize_language_code "arabic" = "ar" ∧
    normalize_language_code "ara" = "ar" ∧
    (∀ x : String, pyStrip (pyLower x) ∉ ["english", "eng", "arabic", "ara"] →
      normalize_language_code x = pyStrip (pyLower x)) := by
  refine ⟨normalize_language_code_idem, by decide, by decide, by decide,
    by decide, by decide, by decide, ?_⟩
  intro x hx
  simp only [List.mem_cons, List.not_mem_nil, or_false, not_or] at hx
  unfold normalize_language_code
  exact languageMapGet_of_not_alias hx.1 hx.2.1 hx.2.2.1 hx.2.2.2

/-- Witness for C9: the universally quantified parts applied at concrete
inputs, discharging the pass-through hypothesis at `" FR "`. -/
theorem C9_witness :
    normalize_language_code (normalize_language_code "  Arabic ") =
      normalize_language_code "  Arabic " ∧
    normalize_language_code " FR " = pyStrip (pyLower " FR ") :=
  ⟨C9_normalize_idempotent_and_aliases.1 "  Arabic ",
   C9_normalize_idempotent_and_aliases.2.2.2.2.2.2.2 " FR " (by decide)⟩

/-- C7: `validate_audio_file` checks, in order and short-circuiting:
declared size over the configured maximum, filename present, extension
in the allow-set, content type beginning with `audio/`. It is a total
function (never raises) always returning the `(ok, reason)` pair: an
`exe` extension yields the format reason, an oversized file the size
reason, a missing filename the no-filename reason. -/
theorem C7_validate_order_and_reasons :
    (∀ cfg : Settings, ∀ f : UploadFile, ∀ s : Nat,
      f.size = some s → s ≠ 0 → s > cfg.MAX_FILE_SIZE →
      validate_audio_file cfg f = (false, some ("File size exceeds maximum allowed size of "
        ++ toString cfg.MAX_FILE_SIZE ++ " bytes"))) ∧
    (∀ cfg : Settings, ∀ f : UploadFile,
      sizeCheckTrips f.size cfg.MAX_FILE_SIZE = false →
      filenameMissing f.filename = true →
      validate_audio_file cfg f = (false, some "No filename provided")) ∧
    (∀ f : UploadFile, ∀ fn : String,
      f.filename = some fn → fn ≠ "" →
      sizeCheckTrips f.size settings.MAX_FILE_SIZE = false →
      pyLower (lastDotPart fn) = "exe" →
      validate_audio_file settings f =
        (false, some "File format not allowed. Allowed formats: mp3, wav, m4a")) ∧
    (∀ cfg : Settings, ∀ f : UploadFile, ∀ fn ct : String,
      f.filename = some fn → fn ≠ "" → f.content_type = some ct →
      sizeCheckTrips f.size cfg.MAX_FILE_SIZE = false →
      pyLower (lastDotPart fn) ∈ cfg.ALLOWED_AUDIO_FORMATS →
      ct ≠ "" → pyStartsWith ct "audio/" = false →
      validate_audio_file cfg f = (false, some "File is not an audio file")) ∧
    (∀ cfg : Settings, ∀ f : UploadFile,
      validate_audio_file cfg f = (true, none) ∨
      ((validate_audio_file cfg f).1 = false ∧ (validate_audio_file cfg f).2.isSome)) := by
  refine ⟨?_, ?_, ?_, ?_, ?_⟩
  · intro cfg f s hsz h0 hgt
    have ht : sizeCheckTrips f.size cfg.MAX_FILE_SIZE = true := by
      simp [sizeCheckTrips, hsz, h0, hgt]
    simp [validate_audio_file, ht]
  · intro cfg f h1 h2
    simp [validate_audio_file, h1, h2]
  · intro f fn hfn hne hsz hext
    have h3 : pyLower (lastDotPart fn) ∉ settings.ALLOWED_AUDIO_FORMATS := by
      rw [hext]; decide
    simp only [validate_audio_file, hfn, Option.getD_some]
    rw [if_neg (by simp [hsz]), if_neg (by simp [filenameMissing, hne]), if_pos h3]
    decide
  · intro cfg f fn ct hfn hne hct hsz hmem hcne hsw
    simp only [validate_audio_file, hfn, hct, Option.getD_some]
    rw [if_neg (by simp [hsz]), if_neg (by simp [filenameMissing, hne]),
      if_neg (not_not_intro hmem), if_pos (And.intro hcne (by simp [hsw]))]
  · intro cfg f
    rcases hct : f.content_type with _ | ct
    all_goals simp only [validate_audio_file, hct]
    all_goals split_ifs <;> simp

/-- Witness for C7: each rejection reason observed on a concrete upload
handle under the default configuration. -/
theorem C7_witness :
    validate_audio_file settings ⟨some "payload.exe", some "audio/mpeg", some 10, 10⟩ =
      (false, some "File format not allowed. Allowed formats: mp3, wav, m4a") ∧
    validate_audio_file settings ⟨some "big.mp3", some "audio/mpeg", some 10485761, 10485761⟩ =
      (false, some "File size exceeds maximum allowed size of 10485760 bytes") ∧
    validate_audio_file settings ⟨none, some "audio/mpeg", some 10, 10⟩ =
      (false, some "No filename provided") ∧
    validate_audio_file settings ⟨some "x.mp3", some "text/html", some 10, 10⟩ =
      (false, some "File is not an audio file") :=
  ⟨C7_validate_order_and_reasons.2.2.1 _ "payload.exe" rfl (by decide) (by decide) (by decide),
   C7_validate_order_and_reasons.1 settings _ 10485761 rfl (by decide) (by decide),
   C7_validate_order_and_reasons.2.1 settings _ (by decide) (by decide),
   C7_validate_order_and_reasons.2.2.2.1 settings _ "x.mp3" "text/html" rfl (by decide) rfl
     (by decide) (by decide) (by decide) (by decide)⟩

/-- C10: when the admission guard's structural validation raises — e.g.
a `content-length` header whose value `int()` cannot parse — the blanket
`except` returns `False` and the middleware answers `400` (fails
closed); and the size check compares against the hard-coded
`10 * 1024 * 1024` literal (the middleware module never consults the
configured `MAX_FILE_SIZE`; `validate_request` takes no configuration at
all): a parseable `content-length` passes exactly when it is at most
`10485760`, independent of any `Settings` value. -/
theorem C10_guard_fails_closed_fixed_threshold :
    (∀ st : GuardState, ∀ r : Req, ∀ v : String,
      r.client ∉ st.blocked_ips →
      r.headers.lookup "content-length" = some v → v ≠ "" →
      pyParseInt v = none → headerSuspicious r.headers = false →
      security_call st r = (.badRequest, st)) ∧
    (∀ v : String, ∀ n : Int, v ≠ "" → pyParseInt v = some n →
      (validate_request [("content-length", v)] = true ↔ n ≤ 10 * 1024 * 1024)) ∧
    validate_request [("content-length", "10485760")] = true ∧
    validate_request [("content-length", "10485761")] = false := by
  refine ⟨?_, ?_, by decide, by decide⟩
  · intro st r v hb hlook hvne hparse hsusp
    have hv : validate_request r.headers = false := by
      unfold validate_request
      rw [if_neg (by simp [hsusp]), hlook]
      show (if v = "" then true
        else match pyParseInt v with
          | none => false
          | some n => decide (n ≤ 10 * 1024 * 1024)) = false
      rw [if_neg hvne, hparse]
    unfold security_call
    rw [if_neg hb, if_pos (by simp [hv])]
  · intro v n hvne hparse
    have hns : headerSuspicious [("content-length", v)] = false := rfl
    unfold validate_request
    rw [if_neg (by simp [hns]),
      show ([("content-length", v)].lookup "content-length") = some v from rfl]
    show (if v = "" then true
      else match pyParseInt v with
        | none => false
        | some n => decide (n ≤ 10 * 1024 * 1024)) = true ↔ n ≤ 10 * 1024 * 1024
    rw [if_neg hvne, hparse]
    simp

/-- Witness for C10: a concrete unparseable `content-length` is rejected
with 400 from the initial state, and the threshold instance at
`10485761`. -/
theorem C10_witness :
    security_call initialGuardState ⟨"1.2.3.4", [("content-length", "abc")], 0⟩ =
      (.badRequest, initialGuardState) ∧
    (validate_request [("content-length", "10485761")] = true ↔
      (10485761 : Int) ≤ 10 * 1024 * 1024) :=
  ⟨C10_guard_fails_closed_fixed_threshold.1 initialGuardState
      ⟨"1.2.3.4", [("content-length", "abc")], 0⟩ "abc"
      (by simp [initialGuardState]) rfl (by decide) (by decide) (by decide),
   C10_guard_fails_closed_fixed_threshold.2.1 "10485761" 10485761 (by decide) (by decide)⟩

theorem guard_window_run (client : String) (t0 : Int) :
    ∀ ts : List Int, ∀ st : GuardState,
    ts ≠ [] →
    client ∉ st.blocked_ips →
    (∀ t ∈ ts, t0 ≤ t ∧ t < t0 + 60) →
    (∀ t ∈ st.request_count client, t0 ≤ t ∧ t < t0 + 60) →
    (st.request_count client).length + ts.length = 101 →
    (∀ resp ∈ (runGuard st (mkReqs client ts)).2, resp = MwResponse.passed) ∧
    client ∈ (runGuard st (mkReqs client ts)).1.blocked_ips := by
  intro ts
  induction ts with
  | nil => intro st h; exact absurd rfl h
  | cons t rest ih =>
    intro st _ hb hwin hpre hlen
    have hstep : security_call st ⟨client, [], t⟩ = (.passed, log_request st client t) := by
      unfold security_call
      rw [if_neg hb, if_neg (by simp [validate_request, headerSuspicious, suspicious_headers])]
    have hfilter : (st.request_count client).filter (fun x => decide (t - x < 60)) =
        st.request_count client := by
      rw [List.filter_eq_self]
      intro a ha
      have h1 := hpre a ha
      have h2 := hwin t (by simp)
      simp only [decide_eq_true_eq]
      omega
    have hrc2 : (log_request st client t).request_count client =
        st.request_count client ++ [t] := by
      simp [log_request, hfilter]
    rcases rest with _ | ⟨t2, rest2⟩
    · have hpre100 : (st.request_count client).length = 100 := by
        simp at hlen; omega
      have hbl : client ∈ (log_request st client t).blocked_ips := by
        simp only [log_request, hfilter]
        rw [if_pos (by simp [hpre100])]
        exact List.mem_insert_self client _
      constructor
      · intro resp hresp
        simp [runGuard, mkReqs, hstep] at hresp
        exact hresp
      · simp [runGuard, mkReqs, hstep]
        exact hbl
    · have hlt : (st.request_count client).length + 1 ≤ 100 := by
        simp at hlen; omega
      have hbl2 : (log_request st client t).blocked_ips = st.blocked_ips := by
        simp only [log_request, hfilter]
        rw [if_neg (by simp; omega)]
      have hwin2 : ∀ x ∈ (log_request st client t).request_count client,
          t0 ≤ x ∧ x < t0 + 60 := by
        rw [hrc2]
        intro y hy
        rcases List.mem_append.mp hy with h | h
        · exact hpre y h
        · have hyt : y = t := by simpa using h
          rw [hyt]
          exact hwin t (List.mem_cons_self _ _)
      have hlen2 : ((log_request st client t).request_count client).length +
          (t2 :: rest2).length = 101 := by
        rw [hrc2]; simp at hlen ⊢; omega
      have hb2 : client ∉ (log_request st client t).blocked_ips := by
        rw [hbl2]; exact hb
      have hrest := ih (log_request st client t) (by simp)
        hb2 (fun x hx => hwin x (by simp [hx])) hwin2 hlen2
      constructor
      · intro resp hresp
        simp only [runGuard, mkReqs, List.map_cons, hstep] at hresp
        rcases List.mem_cons.mp hresp with h | h
        · exact h
        · exact hrest.1 resp h
      · simp only [runGuard, mkReqs, List.map_cons, hstep]
        exact hrest.2

/-- C5: a client issuing 101 requests inside one 60-second window (all
of them passed through) is added to the block set at the 101st; any request
from a blocked client is answered 403 with no state change, at any later
time; and no middleware step ever removes an address from the block set
(blocking is permanent for the process lifetime). -/
theorem C5_rate_limit_block_permanent :
    (∀ client : String, ∀ ts : List Int, ∀ t0 : Int,
      ts.length = 101 →
      (∀ t ∈ ts, t0 ≤ t ∧ t < t0 + 60) →
      (∀ resp ∈ (runGuard initialGuardState (mkReqs client ts)).2,
        resp = MwResponse.passed) ∧
      client ∈ (runGuard initialGuardState (mkReqs client ts)).1.blocked_ips) ∧
    (∀ st : GuardState, ∀ r : Req, r.client ∈ st.blocked_ips →
      security_call st r = (.forbidden, st)) ∧
    (∀ st : GuardState, ∀ r : Req, ∀ ip : String, ip ∈ st.blocked_ips →
      ip ∈ (security_call st r).2.blocked_ips) := by
  refine ⟨?_, ?_, ?_⟩
  · intro client ts t0 hlen hwin
    exact guard_window_run client t0 ts initialGuardState
      (by intro h; rw [h] at hlen; simp at hlen)
      (by simp [initialGuardState]) hwin (by simp [initialGuardState])
      (by simp [initialGuardState, hlen])
  · intro st r hr
    unfold security_call
    rw [if_pos hr]
  · intro st r ip hip
    unfold security_call
    split_ifs
    · exact hip
    · show ip ∈ (log_request st r.client r.time).blocked_ips
      simp only [log_request]
      split_ifs
      · exact List.mem_insert_of_mem hip
      · exact hip
    · exact hip

/-- Witness for C5: 101 requests at time 0 from one client block it, and
a later request (time 1000000, far past the window) is answered 403. -/
theorem C5_witness :
    "1.2.3.4" ∈ (runGuard initialGuardState
      (mkReqs "1.2.3.4" (List.replicate 101 0))).1.blocked_ips ∧
    (security_call (runGuard initialGuardState
        (mkReqs "1.2.3.4" (List.replicate 101 0))).1
      ⟨"1.2.3.4", [], 1000000⟩).1 = MwResponse.forbidden := by
  have h := C5_rate_limit_block_permanent
  have h1 := (h.1 "1.2.3.4" (List.replicate 101 0) 0 (by simp)
    (fun t ht => by simp [List.eq_of_mem_replicate ht])).2
  refine ⟨h1, ?_⟩
  rw [h.2.1 _ ⟨"1.2.3.4", [], 1000000⟩ h1]

theorem countP_or_of_disjoint {α : Type} (p q : α → Bool)
    (hdisj : ∀ a, ¬(p a = true ∧ q a = true)) :
    ∀ l : List α, l.countP (fun a => p a || q a) = l.countP p + l.countP q := by
  intro l
  induction l with
  | nil => simp
  | cons a l ih =>
    simp only [List.countP_cons, ih]
    by_cases hp : p a = true
    · have hq : q a = false := by
        rcases Bool.eq_false_or_eq_true (q a) with h | h
        · exact absurd ⟨hp, h⟩ (hdisj a)
        · exact h
      simp [hp, hq]
      omega
    · rw [Bool.not_eq_true] at hp
      simp [hp]
      omega

theorem nodup_two_mem {L : List String} (hnd : L.Nodup)
    (hmem : ∀ x ∈ L, x = "en" ∨ x = "ar")
    (h1 : "en" ∈ L) (h2 : "ar" ∈ L) :
    L = ["en", "ar"] ∨ L = ["ar", "en"] := by
  rcases L with _ | ⟨a, _ | ⟨b, _ | ⟨c, rest⟩⟩⟩
  · simp at h1
  · have ha1 : a = "en" := by
      have := h1; simp at this; exact this.symm
    have ha2 : a = "ar" := by
      have := h2; simp at this; exact this.symm
    rw [ha1] at ha2
    exact absurd ha2 (by decide)
  · have ha := hmem a (by simp)
    have hb := hmem b (by simp)
    have hne : a ≠ b := by simpa [List.nodup_cons] using hnd
    rcases ha with rfl | rfl <;> rcases hb with rfl | rfl
    · exact absurd rfl hne
    · exact Or.inl rfl
    · exact Or.inr rfl
    · exact absurd rfl hne
  · exfalso
    have ha := hmem a (by simp)
    have hb := hmem b (by simp)
    have hc := hmem c (by simp)
    simp only [List.nodup_cons, List.mem_cons] at hnd
    rcases ha with rfl | rfl <;> rcases hb with rfl | rfl <;>
      rcases hc with h | h <;> simp_all

theorem langs_sorted_pair {docs : List AudioDoc}
    (h1 : docs.countP (fun d => d.language = "en") = 3)
    (h2 : docs.countP (fun d => d.language = "ar") = 2)
    (h3 : docs.length = 5) :
    sortStrings ((docs.map (fun d => d.language)).dedup) = ["ar", "en"] := by
  have hdisj : ∀ d : AudioDoc,
      ¬((decide (d.language = "en")) = true ∧ (decide (d.language = "ar")) = true) := by
    intro d ⟨e1, e2⟩
    rw [decide_eq_true_eq] at e1 e2
    rw [e1] at e2
    exact absurd e2 (by decide)
  have hco := countP_or_of_disjoint (fun d => decide (d.language = "en"))
    (fun d => decide (d.language = "ar")) hdisj docs
  rw [h1, h2] at hco
  have hall0 : ∀ d ∈ docs,
      ((decide (d.language = "en")) || (decide (d.language = "ar"))) = true :=
    List.countP_eq_length.mp (by rw [hco, h3])
  have hall : ∀ x ∈ (docs.map (fun d => d.language)).dedup, x = "en" ∨ x = "ar" := by
    intro x hx
    obtain ⟨d, hd, rfl⟩ := List.mem_map.mp (List.mem_dedup.mp hx)
    have := hall0 d hd
    simpa using this
  have hen : "en" ∈ (docs.map (fun d => d.language)).dedup := by
    rw [List.mem_dedup]
    have hpos : 0 < docs.countP (fun d => d.language = "en") := by rw [h1]; omega
    obtain ⟨d, hd, he⟩ := List.countP_pos_iff.mp hpos
    rw [decide_eq_true_eq] at he
    exact List.mem_map.mpr ⟨d, hd, he⟩
  have har : "ar" ∈ (docs.map (fun d => d.language)).dedup := by
    rw [List.mem_dedup]
    have hpos : 0 < docs.countP (fun d => d.language = "ar") := by rw [h2]; omega
    obtain ⟨d, hd, he⟩ := List.countP_pos_iff.mp hpos
    rw [decide_eq_true_eq] at he
    exact List.mem_map.mpr ⟨d, hd, he⟩
  rcases nodup_two_mem (List.nodup_dedup _) hall hen har with h | h <;> rw [h] <;> decide

/-- C1 (amended): on a store of exactly three `en` and two `ar` records,
`get_available_languages` returns `[{ar, Arabic, 2}, {en, English, 3}]`:
sorted ascending by language code, which places `ar` before `en`; the
display names come from the static table. (The claim had the sequence in
the opposite, `en`-first order.) -/
theorem C1_languages_ar_first (docs : List AudioDoc)
    (h1 : docs.countP (fun d => d.language = "en") = 3)
    (h2 : docs.countP (fun d => d.language = "ar") = 2)
    (h3 : docs.length = 5) :
    get_available_languages ⟨docs⟩ =
      [⟨"ar", "Arabic", 2⟩, ⟨"en", "English", 3⟩] := by
  unfold get_available_languages
  rw [show (Store.mk docs).docs = docs from rfl, langs_sorted_pair h1 h2 h3]
  simp only [List.map_cons, List.map_nil]
  rw [show (language_names.lookup "ar").getD (pyTitle "ar") = "Arabic" from rfl,
    show (language_names.lookup "en").getD (pyTitle "en") = "English" from rfl,
    h1, h2]

/-- Counterexample to C1 as stated: the listing on three `en` and two
`ar` records is `ar`-first (ascending by code), not the claimed
`en`-first sequence. -/
theorem C1_counterexample :
    get_available_languages exampleStore =
      [⟨"ar", "Arabic", 2⟩, ⟨"en", "English", 3⟩] ∧
    get_available_languages exampleStore ≠
      [⟨"en", "English", 3⟩, ⟨"ar", "Arabic", 2⟩] := by
  constructor <;> decide

/-- Witness for C1 (amended) at the concrete five-record store. -/
theorem C1_witness :
    get_available_languages ⟨exampleStore.docs⟩ =
      [⟨"ar", "Arabic", 2⟩, ⟨"en", "English", 3⟩] :=
  C1_languages_ar_first exampleStore.docs (by decide) (by decide) (by decide)

theorem validate_language_ok {v l : String} (h : validate_language v = .ok l) :
    l = pyLower v ∧ pyLower v ∈ ["en", "ar", "english", "arabic"] := by
  unfold validate_language at h
  split_ifs at h with hm
  exact ⟨(Except.ok.inj h).symm, hm⟩

theorem validate_format_ok {v f : String} (h : validate_format v = .ok f) :
    f = pyLower v ∧ pyLower v ∈ ["mp3", "wav", "m4a", "ogg"] := by
  unfold validate_format at h
  split_ifs at h with hm
  exact ⟨(Except.ok.inj h).symm, hm⟩

theorem mkAudioFileCreate_ok {language filename url : String} {sz : Nat}
    {dur : Option Nat} {fmt : String} {c : AudioFileCreate}
    (h : mkAudioFileCreate language filename url sz dur fmt = .ok c) :
    c.language = pyLower language ∧
    pyLower language ∈ ["en", "ar", "english", "arabic"] ∧
    c.format = pyLower fmt ∧ c.filename = filename ∧ c.url = url ∧
    c.file_size = sz ∧ c.duration = dur := by
  unfold mkAudioFileCreate at h
  rcases hl : validate_language language with e | l <;> rw [hl] at h
  · rcases hf : validate_format fmt with e2 | f <;> rw [hf] at h <;> simp at h
  · rcases hf : validate_format fmt with e2 | f <;> rw [hf] at h
    · simp at h
    · have hc := Except.ok.inj h
      obtain ⟨hl1, hl2⟩ := validate_language_ok hl
      obtain ⟨hf1, _⟩ := validate_format_ok hf
      subst hc
      exact ⟨hl1.symm ▸ rfl, hl1 ▸ hl2, hf1.symm ▸ rfl, rfl, rfl, rfl, rfl⟩

/-- C8 (amended): records persisted through the validated create model
carry a lower-case language inside the model's allowed set
(`en`/`ar`/`english`/`arabic` — not only the canonical codes), and
`create_audio_file` appends exactly that validated record; but the
partial-update path copies every provided field into the document with
no validation at all, so the language invariant is not preserved by
update. -/
theorem C8_language_invariant_amended :
    (∀ language filename url : String, ∀ sz : Nat, ∀ dur : Option Nat,
      ∀ fmt : String, ∀ c : AudioFileCreate,
      mkAudioFileCreate language filename url sz dur fmt = .ok c →
      c.language = pyLower language ∧
      c.language ∈ ["en", "ar", "english", "arabic"]) ∧
    (∀ st : Store, ∀ c : AudioFileCreate, ∀ newId : String, ∀ now : Int,
      (create_audio_file st c newId now).2.docs =
        st.docs ++ [(create_audio_file st c newId now).1] ∧
      (create_audio_file st c newId now).1.language = c.language) ∧
    (∀ d : AudioDoc, ∀ u : AudioFileUpdate, ∀ now : Int,
      (applyUpdate d u now).language = u.language.getD d.language) := by
  refine ⟨?_, ?_, ?_⟩
  · intro language filename url sz dur fmt c h
    obtain ⟨h1, h2, _⟩ := mkAudioFileCreate_ok h
    exact ⟨h1, h1 ▸ h2⟩
  · intro st c newId now
    exact ⟨rfl, rfl⟩
  · intro d u now
    rfl

/-- Counterexample to C8 as stated: updating a well-formed record with
`{language: "FRENCH"}` persists the raw value `FRENCH` — not lower-case
and not a canonical code — because `AudioFileUpdate` has no validator. -/
theorem C8_counterexample :
    ((update_audio_file ⟨[exDoc "en" "f0.mp3" 0]⟩ "aaaaaaaaaaaaaaaaaaaaaaa0"
        { language := some "FRENCH" } 5).2.docs.map (fun d => d.language)) = ["FRENCH"] ∧
    ("FRENCH" : String) ∉ (["en", "ar"] : List String) ∧
    pyLower "FRENCH" ≠ "FRENCH" := by
  refine ⟨?_, by decide, by decide⟩
  decide

/-- Witness for C8 (amended): the create model lower-cases `"English"`
to the non-canonical but allowed `"english"`. -/
theorem C8_witness :
    (AudioFileCreate.mk "english" "f.mp3" "u" 1 none "mp3").language = pyLower "English" ∧
    (AudioFileCreate.mk "english" "f.mp3" "u" 1 none "mp3").language ∈
      ["en", "ar", "english", "arabic"] :=
  C8_language_invariant_amended.1 "English" "f.mp3" "u" 1 none "mp3" _ rfl

theorem get_audio_by_id_ok_some {st : Store} {audio_id : String} {d : AudioDoc}
    (h : get_audio_by_id st audio_id = .ok (some d)) :
    isValidObjectId audio_id = true ∧
    ∃ d0, st.docs.find? (fun x => x.id = audio_id) = some d0 ∧
      mkAudioFile d0 = .ok d ∧ d0.filename = d.filename := by
  unfold get_audio_by_id at h
  split_ifs at h with hv
  have hvv : isValidObjectId audio_id = true := by simpa using hv
  refine ⟨hvv, ?_⟩
  rcases hf : st.docs.find? (fun x => x.id = audio_id) with _ | d0 <;> rw [hf] at h
  · exact absurd h (by simp)
  · have h2 : Except.map some (mkAudioFile d0) = Except.ok (some d) := h
    rcases hm : mkAudioFile d0 with e | d1 <;> rw [hm] at h2
    · exact absurd h2 (by simp [Except.map])
    · have hd : d1 = d := by simpa [Except.map] using h2
      subst hd
      refine ⟨d0, hf, hm, ?_⟩
      unfold mkAudioFile at hm
      rcases h1 : validate_language d0.language with e | l <;> rw [h1] at hm
      · simp at hm
      · rcases h2 : validate_format d0.format with e | f <;> rw [h2] at hm
        · simp at hm
        · have := Except.ok.inj hm
          rw [← this]

/-- C2 (amended): when the store record is found and its deletion
commits, a missing physical file still yields the 200 success response;
but when `os.remove` raises (file present, not removable) the blanket
handler answers 500 `Failed to delete audio file` — the error is logged
and the already-committed store deletion stands, yet the success
response is replaced by the 500, contrary to the claim. -/
theorem C2_delete_partial_failure (cfg : Settings) (st : Store) (fs : FS)
    (audio_id : String) (d : AudioDoc)
    (hget : get_audio_by_id st audio_id = .ok (some d)) :
    (fs.pathExists (osPathJoin cfg.AUDIO_FILES_PATH d.filename) = false →
      delete_audio_file_route cfg st fs audio_id =
        (.ok "Audio file deleted successfully",
          ⟨st.docs.eraseP (fun x => x.id = audio_id)⟩, fs)) ∧
    (fs.pathExists (osPathJoin cfg.AUDIO_FILES_PATH d.filename) = true →
      fs.removableAt (osPathJoin cfg.AUDIO_FILES_PATH d.filename) = false →
      delete_audio_file_route cfg st fs audio_id =
        (.err 500 "Failed to delete audio file",
          ⟨st.docs.eraseP (fun x => x.id = audio_id)⟩, fs)) := by
  obtain ⟨hv, d0, hfind, hmk, hfn⟩ := get_audio_by_id_ok_some hget
  have hsvc : delete_audio_file_svc st audio_id =
      .ok (true, ⟨st.docs.eraseP (fun x => x.id = audio_id)⟩) := by
    unfold delete_audio_file_svc
    rw [if_neg (by simp [hv]), hfind]
    rfl
  constructor
  · intro hpe
    unfold delete_audio_file_route
    rw [hget, hsvc]
    simp [hpe]
  · intro hpe hrm
    unfold delete_audio_file_route
    rw [hget, hsvc]
    simp [hpe, hrm]

/-- Counterexample to C2 as stated: one record whose physical file
exists but cannot be removed; the route answers 500 — not the claimed
200 — while the store deletion has already committed (the store is
empty afterwards) and the file is untouched. -/
theorem C2_counterexample :
    delete_audio_file_route settings ⟨[exDoc "en" "f0.mp3" 0]⟩
        ⟨[("./audio_files/f0.mp3", ⟨1, false⟩)], []⟩ "aaaaaaaaaaaaaaaaaaaaaaa0" =
      (.err 500 "Failed to delete audio file", ⟨[]⟩,
        ⟨[("./audio_files/f0.mp3", ⟨1, false⟩)], []⟩) := by
  decide

/-- Witness for C2 (amended): the same record with the physical file
absent is deleted with the 200 success response. -/
theorem C2_witness :
    delete_audio_file_route settings ⟨[exDoc "en" "f0.mp3" 0]⟩ ⟨[], []⟩
        "aaaaaaaaaaaaaaaaaaaaaaa0" =
      (.ok "Audio file deleted successfully",
        ⟨(Store.mk [exDoc "en" "f0.mp3" 0]).docs.eraseP
          (fun x => x.id = "aaaaaaaaaaaaaaaaaaaaaaa0")⟩, ⟨[], []⟩) :=
  (C2_delete_partial_failure settings ⟨[exDoc "en" "f0.mp3" 0]⟩ ⟨[], []⟩
    "aaaaaaaaaaaaaaaaaaaaaaa0" (exDoc "en" "f0.mp3" 0) rfl).1 (by decide)

/-- C3 (amended): a malformed identifier makes the service raise
`InvalidId` — distinct from the ok-but-absent result — but the router's
blanket handler maps it to a 500 `Failed to delete audio file`, not to
a 400-class response; a well-formed identifier matching no record gets
the distinct 404 `Audio file not found`. -/
theorem C3_invalid_id_maps_to_500 :
    (∀ cfg : Settings, ∀ st : Store, ∀ fs : FS, ∀ audio_id : String,
      isValidObjectId audio_id = false →
      get_audio_by_id st audio_id = .error .invalidId ∧
      delete_audio_file_route cfg st fs audio_id =
        (.err 500 "Failed to delete audio file", st, fs)) ∧
    (∀ cfg : Settings, ∀ st : Store, ∀ fs : FS, ∀ audio_id : String,
      isValidObjectId audio_id = true →
      st.docs.find? (fun d => d.id = audio_id) = none →
      get_audio_by_id st audio_id = .ok none ∧
      delete_audio_file_route cfg st fs audio_id =
        (.err 404 "Audio file not found", st, fs)) := by
  constructor
  · intro cfg st fs audio_id hv
    have hget : get_audio_by_id st audio_id = .error .invalidId := by
      unfold get_audio_by_id
      rw [if_pos (by simp [hv])]
    refine ⟨hget, ?_⟩
    unfold delete_audio_file_route
    rw [hget]
  · intro cfg st fs audio_id hv hfind
    have hget : get_audio_by_id st audio_id = .ok none := by
      unfold get_audio_by_id
      rw [if_neg (by simp [hv]), hfind]
    refine ⟨hget, ?_⟩
    unfold delete_audio_file_route
    rw [hget]

/-- Counterexample to C3 as stated: the malformed identifier `zzz`
produces a 500 response from the delete route, not a 400-class one; the
distinct 404 appears only for a well-formed unmatched identifier. -/
theorem C3_counterexample :
    (delete_audio_file_route settings ⟨[]⟩ ⟨[], []⟩ "zzz").1 =
      .err 500 "Failed to delete audio file" ∧
    get_audio_by_id ⟨[]⟩ "zzz" = .error .invalidId ∧
    (delete_audio_file_route settings ⟨[]⟩ ⟨[], []⟩
      "aaaaaaaaaaaaaaaaaaaaaaa0").1 = .err 404 "Audio file not found" := by
  refine ⟨by decide, rfl, by decide⟩

/-- Witness for C3 (amended) at the malformed id `zzz` and the
well-formed absent id. -/
theorem C3_witness :
    get_audio_by_id (⟨[]⟩ : Store) "zzz" = .error .invalidId ∧
    delete_audio_file_route settings ⟨[]⟩ ⟨[], []⟩ "zzz" =
      (.err 500 "Failed to delete audio file", ⟨[]⟩, ⟨[], []⟩) :=
  C3_invalid_id_maps_to_500.1 settings ⟨[]⟩ ⟨[], []⟩ "zzz" (by decide)

/-- C4 (amended): `save_uploaded_file` re-raises any I/O failure to its
caller (no typed `StorageError`, and nothing else is returned); there is
no path-separator check of any kind — a generated name containing
separators is joined into the storage root and written as-is; and
`get_file_size` swallows every failure and silently returns the default
`0` instead of failing. -/
theorem C4_persister_behaviour :
    (∀ cfg : Settings, ∀ fs : FS, ∀ n : Nat, ∀ name : String,
      osPathJoin cfg.AUDIO_FILES_PATH name ∈ fs.writeFailures →
      save_uploaded_file cfg fs n name = .error ()) ∧
    (∀ cfg : Settings, ∀ fs : FS, ∀ n : Nat, ∀ name : String,
      osPathJoin cfg.AUDIO_FILES_PATH name ∉ fs.writeFailures →
      save_uploaded_file cfg fs n name =
        .ok (osPathJoin cfg.AUDIO_FILES_PATH name,
          fs.write (osPathJoin cfg.AUDIO_FILES_PATH name) n)) ∧
    (∀ fs : FS, ∀ p : String, fs.files.lookup p = none →
      get_file_size fs p = 0) := by
  refine ⟨?_, ?_, ?_⟩
  · intro cfg fs n name h
    unfold save_uploaded_file
    rw [if_pos h]
  · intro cfg fs n name h
    unfold save_uploaded_file
    rw [if_neg h]
  · intro fs p h
    unfold get_file_size
    rw [h]

/-- Counterexample to C4 as stated: `get_file_size` on a missing path
returns the silent default `0`, and a name containing path separators
(`../evil.mp3`) is written with no rejection. -/
theorem C4_counterexample :
    get_file_size ⟨[], []⟩ "./audio_files/missing.mp3" = 0 ∧
    save_uploaded_file settings ⟨[], []⟩ 3 "../evil.mp3" =
      .ok ("./audio_files/../evil.mp3",
        ⟨[("./audio_files/../evil.mp3", ⟨3, true⟩)], []⟩) := by
  exact ⟨by decide, rfl⟩

/-- Witness for C4 (amended) at a failing write path and a missing file. -/
theorem C4_witness :
    save_uploaded_file settings ⟨[], ["./audio_files/full.mp3"]⟩ 5 "full.mp3" =
      .error () ∧
    get_file_size ⟨[], []⟩ "nowhere" = 0 :=
  ⟨C4_persister_behaviour.1 settings ⟨[], ["./audio_files/full.mp3"]⟩ 5 "full.mp3"
    (by decide),
   C4_persister_behaviour.2.2 ⟨[], []⟩ "nowhere" rfl⟩

theorem get_file_size_write (fs : FS) (p : String) (n : Nat) :
    get_file_size (fs.write p n) p = n := by
  unfold get_file_size FS.write
  simp [List.lookup]

theorem mkAudioFile_ok_fields {d d2 : AudioDoc} (h : mkAudioFile d = .ok d2) :
    d2.language = pyLower d.language ∧ d2.filename = d.filename := by
  unfold mkAudioFile at h
  rcases h1 : validate_language d.language with e | l <;> rw [h1] at h
  · simp at h
  · rcases h2 : validate_format d.format with e | f <;> rw [h2] at h
    · simp at h
    · have hinj := Except.ok.inj h
      subst hinj
      obtain ⟨hl1, _⟩ := validate_language_ok h1
      exact ⟨hl1, rfl⟩

theorem getByLanguage_en_of_mem (st : Store)
    (hwf : ∀ d ∈ st.docs, ∃ d2, mkAudioFile d = Except.ok d2)
    (hmem : ∃ d ∈ st.docs, d.language = "en") :
    ∃ r, get_audio_by_language_route st "en" = .ok r ∧ r.language = "en" := by
  have hsvcc : svcLangCode "en" = "en" := by decide
  rcases hf : st.docs.find? (fun d => d.language = "en") with _ | d0
  · exfalso
    obtain ⟨d, hd, he⟩ := hmem
    have hs : (st.docs.find? (fun d => d.language = "en")).isSome :=
      List.find?_isSome.mpr ⟨d, hd, by simp [he]⟩
    rw [hf] at hs
    simp at hs
  · have hd0mem := List.mem_of_find?_eq_some hf
    have hd0lang : d0.language = "en" := by
      have := List.find?_some hf
      simpa using this
    obtain ⟨d2, hm⟩ := hwf d0 hd0mem
    have hsvcval : get_audio_by_language_svc st "en" = .ok (some d2) := by
      unfold get_audio_by_language_svc
      simp only [hsvcc]
      rw [hf]
      show Except.map some (mkAudioFile d0) = .ok (some d2)
      rw [hm]
      rfl
    have hn : normalize_language_code "en" = "en" := by decide
    unfold get_audio_by_language_route
    rw [hn, hsvcval]
    refine ⟨d2, rfl, ?_⟩
    rw [(mkAudioFile_ok_fields hm).1, hd0lang]
    decide

/-- C6: uploading a valid 12-byte `mp3` file with language input
`english` (with a `uuid4().hex` token: 32 hex characters, 128 bits)
stores a record with `language = "en"`, `format = "mp3"`,
`file_size = 12` and the generated name `en_{token}.mp3` of the form
`{language}_{token}.{extension}`, appended to the store; a subsequent
`getByLanguage("en")` on the resulting store returns a record with
language `en` (the first match — one of the duplicates if several
exist). -/
theorem C6_upload_roundtrip (st : Store) (fs : FS) (file : UploadFile)
    (token newId : String) (now : Int)
    (hval : validate_audio_file settings file = (true, none))
    (hext : pyLower (lastDotPart (file.filename.getD "")) = "mp3")
    (hlen : file.contentLen = 12)
    (htoken : token.data.length = 32 ∧ token.data.all isHexChar = true)
    (hw : osPathJoin settings.AUDIO_FILES_PATH ("en" ++ "_" ++ token ++ "." ++ "mp3")
      ∉ fs.writeFailures)
    (hwf : ∀ d ∈ st.docs, ∃ d2, mkAudioFile d = Except.ok d2) :
    ∃ doc : AudioDoc, ∃ fs2 : FS,
      upload_audio_file_route settings st fs file "english" token newId now =
        (.ok doc, ⟨st.docs ++ [doc]⟩, fs2) ∧
      doc.language = "en" ∧ doc.format = "mp3" ∧ doc.file_size = 12 ∧
      doc.filename = "en" ++ "_" ++ token ++ "." ++ "mp3" ∧
      token.data.length = 32 ∧ token.data.all isHexChar = true ∧
      (∃ r, get_audio_by_language_route ⟨st.docs ++ [doc]⟩ "en" = .ok r ∧
        r.language = "en") := by
  have hn2 : normalize_language_code "english" = "en" := by decide
  have hsave : save_uploaded_file settings fs file.contentLen
      ("en" ++ "_" ++ token ++ "." ++ "mp3") =
      .ok (osPathJoin settings.AUDIO_FILES_PATH ("en" ++ "_" ++ token ++ "." ++ "mp3"),
        fs.write (osPathJoin settings.AUDIO_FILES_PATH
          ("en" ++ "_" ++ token ++ "." ++ "mp3")) file.contentLen) := by
    unfold save_uploaded_file
    rw [if_neg hw]
  have hmk : mkAudioFileCreate "en" ("en" ++ "_" ++ token ++ "." ++ "mp3")
      (generate_file_url settings ("en" ++ "_" ++ token ++ "." ++ "mp3"))
      file.contentLen none "mp3" =
      .ok ⟨"en", "en" ++ "_" ++ token ++ "." ++ "mp3",
        generate_file_url settings ("en" ++ "_" ++ token ++ "." ++ "mp3"),
        file.contentLen, none, "mp3"⟩ := rfl
  have hroute : upload_audio_file_route settings st fs file "english" token newId now =
      (.ok (⟨newId, "en", "en" ++ "_" ++ token ++ "." ++ "mp3",
          generate_file_url settings ("en" ++ "_" ++ token ++ "." ++ "mp3"),
          file.contentLen, none, "mp3", now, now⟩ : AudioDoc),
        ⟨st.docs ++ [⟨newId, "en", "en" ++ "_" ++ token ++ "." ++ "mp3",
          generate_file_url settings ("en" ++ "_" ++ token ++ "." ++ "mp3"),
          file.contentLen, none, "mp3", now, now⟩]⟩,
        fs.write (osPathJoin settings.AUDIO_FILES_PATH
          ("en" ++ "_" ++ token ++ "." ++ "mp3")) file.contentLen) := by
    unfold upload_audio_file_route
    rw [hval]
    simp only [hn2, hext, hsave, get_file_size_write, hmk, create_audio_file]
  refine ⟨⟨newId, "en", "en" ++ "_" ++ token ++ "." ++ "mp3",
      generate_file_url settings ("en" ++ "_" ++ token ++ "." ++ "mp3"),
      file.contentLen, none, "mp3", now, now⟩,
    fs.write (osPathJoin settings.AUDIO_FILES_PATH
      ("en" ++ "_" ++ token ++ "." ++ "mp3")) file.contentLen,
    hroute, rfl, rfl, hlen, rfl, htoken.1, htoken.2, ?_⟩
  apply getByLanguage_en_of_mem
  · intro d hd
    rcases List.mem_append.mp hd with h | h
    · exact hwf d h
    · rw [List.eq_of_mem_singleton h]
      exact ⟨_, rfl⟩
  · exact ⟨_, List.mem_append.mpr (Or.inr (List.mem_singleton_self _)), rfl⟩

/-- Witness for C6: the concrete 12-byte upload with a concrete 32-hex
token, from the empty store and empty filesystem. -/
theorem C6_witness :
    ∃ doc : AudioDoc, ∃ fs2 : FS,
      upload_audio_file_route settings ⟨[]⟩ ⟨[], []⟩
          ⟨some "song.mp3", some "audio/mpeg", some 12, 12⟩ "english"
          "0123456789abcdef0123456789abcdef" "aaaaaaaaaaaaaaaaaaaaaaa9" 7 =
        (.ok doc, ⟨[] ++ [doc]⟩, fs2) ∧
      doc.language = "en" ∧ doc.format = "mp3" ∧ doc.file_size = 12 ∧
      doc.filename = "en" ++ "_" ++ "0123456789abcdef0123456789abcdef" ++ "." ++ "mp3" ∧
      ("0123456789abcdef0123456789abcdef" : String).data.length = 32 ∧
      ("0123456789abcdef0123456789abcdef" : String).data.all isHexChar = true ∧
      (∃ r, get_audio_by_language_route ⟨[] ++ [doc]⟩ "en" = .ok r ∧
        r.language = "en") :=
  C6_upload_roundtrip ⟨[]⟩ ⟨[], []⟩
    ⟨some "song.mp3", some "audio/mpeg", some 12, 12⟩
    "0123456789abcdef0123456789abcdef" "aaaaaaaaaaaaaaaaaaaaaaa9" 7
    (by decide) (by decide) rfl ⟨by decide, by decide⟩ (by decide)
    (by intro d hd; simp at hd)

end AudioBackend
